import Mathlib

set_option maxHeartbeats 1000000

/-!
Shallow embedding of pyknow/rule.py: the conditional-element (CE) algebra of a
forward-chaining rule engine — base Rule (conjunction), AND, OR, NOT — together
with the Activation record and the consequence-binding call protocol of
Rule.__call__.  Collaborators that live outside the source unit (FactList,
Fact/InitialFact, Context, Activation) are modelled from the spec at their
interface.  Machine-level Python behaviours (dict insertion order, the
ValueError of dict() on a wrongly-shaped pair, tuple(set(..)) deduplication,
itertools.product order) are modelled explicitly below.
-/

/-- Modelled from the spec: a Context (pyknow.fact.Context, absent from the
source unit) is a mapping from bound variable names to values; values are
modelled as naturals, the evaluator never inspects them. -/
abbrev Ctx := List (String × Nat)

/-- Modelled from the spec: a fact pattern handed to the working memory for
matching (pyknow.fact.Fact / InitialFact, absent from the source unit).
`Pat.initial` is the distinguished InitialFact pattern, compared by value. -/
inductive Pat where
  | initial
  | mk (n : Nat)
deriving DecidableEq, Repr

/-- A value that can appear in an Activation's `facts` tuple.  Normally a plain
fact identifier (`fid`); OR.get_activations also stores there element 0 of each
accumulated entry, which for a leaf child is the first matched
(factId, Context) pair (`pairRef`), and can even be a malformed store entry
(`malformedRef`). -/
inductive FactRef where
  | fid (n : Nat)
  | pairRef (r : FactRef) (c : Option Ctx)
  | malformedRef
deriving DecidableEq, Repr

/-- Modelled from the spec: one element of a store match result — a well-formed
(factRef, context) 2-tuple, or a structurally malformed entry (a sequence whose
length is not 2, over which Python dict construction and tuple unpacking raise
ValueError).  The context slot is optional because None can flow into it from
dict(act.contexts).get(fact). -/
inductive MEntry where
  | pair (r : FactRef) (c : Option Ctx)
  | malformed
deriving DecidableEq, Repr

/-- Modelled from the spec: the working memory (pyknow.factlist.FactList,
absent from the source unit).  `isFactList` records whether the object passed
to get_activations is an actual FactList instance — rule.py checks this with
isinstance; `matches` is the matching interface, kept total so the structure
also stands for a duck-typed non-FactList object offering it. -/
structure Store where
  isFactList : Bool
  matchesFn : Pat → List MEntry

/-- The CE algebra of rule.py: leaf fact patterns and the composite variants.
`rule` is the base Rule class (an implicit conjunction); AND inherits its
behaviour unchanged. -/
inductive CE where
  | pattern (p : Pat)
  | rule (conds : List CE)
  | and (conds : List CE)
  | or (conds : List CE)
  | not (conds : List CE)

mutual

def CE.decEq : (a b : CE) → Decidable (a = b)
  | .pattern p, .pattern q =>
    if h : p = q then isTrue (by rw [h])
    else isFalse (fun hh => h (CE.pattern.inj hh))
  | .rule as, .rule bs =>
    match CE.decEqList as bs with
    | isTrue h => isTrue (by rw [h])
    | isFalse h => isFalse (fun hh => h (CE.rule.inj hh))
  | .and as, .and bs =>
    match CE.decEqList as bs with
    | isTrue h => isTrue (by rw [h])
    | isFalse h => isFalse (fun hh => h (CE.and.inj hh))
  | .or as, .or bs =>
    match CE.decEqList as bs with
    | isTrue h => isTrue (by rw [h])
    | isFalse h => isFalse (fun hh => h (CE.or.inj hh))
  | .not as, .not bs =>
    match CE.decEqList as bs with
    | isTrue h => isTrue (by rw [h])
    | isFalse h => isFalse (fun hh => h (CE.not.inj hh))
  | .pattern _, .rule _ => isFalse (fun h => CE.noConfusion h)
  | .pattern _, .and _ => isFalse (fun h => CE.noConfusion h)
  | .pattern _, .or _ => isFalse (fun h => CE.noConfusion h)
  | .pattern _, .not _ => isFalse (fun h => CE.noConfusion h)
  | .rule _, .pattern _ => isFalse (fun h => CE.noConfusion h)
  | .rule _, .and _ => isFalse (fun h => CE.noConfusion h)
  | .rule _, .or _ => isFalse (fun h => CE.noConfusion h)
  | .rule _, .not _ => isFalse (fun h => CE.noConfusion h)
  | .and _, .pattern _ => isFalse (fun h => CE.noConfusion h)
  | .and _, .rule _ => isFalse (fun h => CE.noConfusion h)
  | .and _, .or _ => isFalse (fun h => CE.noConfusion h)
  | .and _, .not _ => isFalse (fun h => CE.noConfusion h)
  | .or _, .pattern _ => isFalse (fun h => CE.noConfusion h)
  | .or _, .rule _ => isFalse (fun h => CE.noConfusion h)
  | .or _, .and _ => isFalse (fun h => CE.noConfusion h)
  | .or _, .not _ => isFalse (fun h => CE.noConfusion h)
  | .not _, .pattern _ => isFalse (fun h => CE.noConfusion h)
  | .not _, .rule _ => isFalse (fun h => CE.noConfusion h)
  | .not _, .and _ => isFalse (fun h => CE.noConfusion h)
  | .not _, .or _ => isFalse (fun h => CE.noConfusion h)
termination_by a b => sizeOf a

def CE.decEqList : (as bs : List CE) → Decidable (as = bs)
  | [], [] => isTrue rfl
  | [], _ :: _ => isFalse (fun h => List.noConfusion h)
  | _ :: _, [] => isFalse (fun h => List.noConfusion h)
  | a :: as, b :: bs =>
    match CE.decEq a b with
    | isFalse h => isFalse (fun hh => h (List.cons.inj hh).1)
    | isTrue h1 =>
      match CE.decEqList as bs with
      | isTrue h2 => isTrue (by rw [h1, h2])
      | isFalse h => isFalse (fun hh => h (List.cons.inj hh).2)
termination_by as bs => sizeOf as

end

instance : DecidableEq CE := CE.decEq

/-- Modelled from the spec: pyknow.activation.Activation (absent from the
source unit): an immutable record of the producing rule, the matched fact
identifiers and the (fact, context) pairs, compared and hashed structurally so
that equal matches collapse under set semantics. -/
structure Activation where
  rule : CE
  facts : List FactRef
  contexts : List (FactRef × Option Ctx)
deriving DecidableEq

/-- Python dict insertion: an existing key keeps its position and takes the new
value (last write wins); a new key is appended. -/
def pyDictInsert {α β : Type} [DecidableEq α] (d : List (α × β)) (k : α) (v : β) :
    List (α × β) :=
  if d.any (fun kv => kv.1 == k) then
    d.map (fun kv => if kv.1 == k then (k, v) else kv)
  else d ++ [(k, v)]

/-- Python dict built from a list of pairs, as a key-unique association list in
insertion order with last-write-wins values. -/
def pyDict {α β : Type} [DecidableEq α] (l : List (α × β)) : List (α × β) :=
  l.foldl (fun d kv => pyDictInsert d kv.1 kv.2) []

/-- Python d.get(k): the stored value if the key is present, none otherwise. -/
def pyGet {α β : Type} [DecidableEq α] (d : List (α × β)) (k : α) : Option β :=
  (d.find? (fun kv => kv.1 == k)).map (fun kv => kv.2)

def MEntry.isMalformed : MEntry → Bool
  | .malformed => true
  | _ => false

def MEntry.toPair : MEntry → FactRef × Option Ctx
  | .pair r c => (r, c)
  | .malformed => (.malformedRef, none)

/-- dict(match) over one product tuple: Python raises ValueError as soon as a
malformed (non-2-sequence) element is hit, so any malformed element yields
none; otherwise ordinary dict construction. -/
def dictOfEntries (l : List MEntry) : Option (List (FactRef × Option Ctx)) :=
  if l.any MEntry.isMalformed then none
  else some (pyDict (l.map MEntry.toPair))

/-- itertools.product over the per-child candidate lists: rightmost dimension
varies fastest. -/
def listProd {α : Type} : List (List α) → List (List α)
  | [] => [[]]
  | d :: ds => d.flatMap (fun x => (listProd ds).map (fun t => x :: t))

def FactRef.rank : FactRef → Nat
  | .fid _ => 0
  | .pairRef _ _ => 1
  | .malformedRef => 2

/-- Lexicographic comparison of contexts, used only to make the sort below
total.  Python would compare dict-like Context objects or raise; no claim
depends on this case. -/
def ctxLe : List (String × Nat) → List (String × Nat) → Bool
  | [], _ => true
  | _ :: _, [] => false
  | a :: as, b :: bs =>
    if a = b then ctxLe as bs
    else if a.1 = b.1 then decide (a.2 ≤ b.2)
    else decide (a.1 < b.1)

def octxLe : Option Ctx → Option Ctx → Bool
  | none, _ => true
  | some _, none => false
  | some a, some b => ctxLe a b

/-- Total comparison behind Python sorted() on the fact keys.  On plain fact
identifiers — the only case rule.py reaches with a well-typed store — it is
numeric order; Python raises TypeError on mixed kinds, modelled here as a
total order by rank. -/
def FactRef.le : FactRef → FactRef → Bool
  | .fid n, .fid m => decide (n ≤ m)
  | .pairRef r c, .pairRef s d => if r = s then octxLe c d else FactRef.le r s
  | x, y => decide (x.rank ≤ y.rank)

def insertRef (a : FactRef) : List FactRef → List FactRef
  | [] => [a]
  | b :: bs => if FactRef.le a b then a :: b :: bs else b :: insertRef a bs

/-- sorted() of the (already unique) dict keys. -/
def sortRefs : List FactRef → List FactRef
  | [] => []
  | a :: as => insertRef a (sortRefs as)

/-- Rule.get_activations, composite-child branch: every (fact, context) pair of
every child activation becomes its own singleton candidate list
(matches.append([(fact, context)])).  The context is
dict(act.contexts).get(fact), whose absent-key None and stored None coincide. -/
def flattenActs (acts : List Activation) : List (List MEntry) :=
  acts.flatMap (fun a =>
    a.facts.map (fun f => [MEntry.pair f ((pyGet (pyDict a.contexts) f).getD none)]))

/-- Body of the product loop in Rule.get_activations: merge one product tuple
into a dict — a ValueError is suppressed, leaving the empty dict — then sort
the unique keys into the facts tuple and emit an Activation unless facts is
empty. -/
def tupleToAct (self : CE) (t : List MEntry) : Option Activation :=
  let contexts := (dictOfEntries t).getD []
  let facts := sortRefs (contexts.map (fun kv => kv.1))
  if facts = [] then none
  else some { rule := self, facts := facts, contexts := contexts }

/-- The for-else product phase over the collected candidate dimensions. -/
def activationsOfDims (self : CE) (dims : List (List MEntry)) : List Activation :=
  (listProd dims).filterMap (tupleToAct self)

/-- One element of the `matches` list of OR.get_activations: a composite child
appends a (fact, dict(act.contexts) items) 2-tuple per flattened fact; a leaf
child appends its whole match list as a single element. -/
inductive OREntry where
  | comp (ref : FactRef) (ctxItems : List (FactRef × Option Ctx))
  | leafE (m : List MEntry)
deriving DecidableEq, Repr

def mEntryRef : MEntry → FactRef
  | .pair r c => .pairRef r c
  | .malformed => .malformedRef

/-- Element 0 of an OR matches entry, as used in facts=[fact[0] for fact in
matches].  The empty leaf case is unreachable: leaf match lists are appended
only when non-empty. -/
def OREntry.first : OREntry → FactRef
  | .comp r _ => r
  | .leafE [] => .malformedRef
  | .leafE (e :: _) => mEntryRef e

/-- OR.get_activations, composite-child branch: one entry per flattened fact,
carrying the full dict(act.contexts) of its activation. -/
def orCompEntries (acts : List Activation) : List OREntry :=
  acts.flatMap (fun a => a.facts.map (fun f => OREntry.comp f (pyDict a.contexts)))

/-- Errors raised by rule.py evaluation.  `invalidStore` is the
ValueError("factlist must be an instance of FactList"); `valueError` is the
ValueError raised by the tuple unpacking of a malformed first sentinel entry in
NOT.get_activations (the local suppress there covers only IndexError);
`notARule` marks calling get_activations on a leaf Fact, which does not define
it (an AttributeError in Python). -/
inductive EvalErr where
  | invalidStore
  | valueError
  | notARule
deriving DecidableEq, Repr

mutual

/-- get_activations dispatch over the CE variants.  Base Rule and AND share
Rule.get_activations; OR and NOT override it. -/
def get_activations (ce : CE) (fl : Store) : Except EvalErr (List Activation) :=
  match ce with
  | .pattern _ => .error .notARule
  | .rule conds => ruleGetActivations (.rule conds) conds fl
  | .and conds => ruleGetActivations (.and conds) conds fl
  | .or conds => orGetActivations (.or conds) conds fl
  | .not conds => notGetActivations (.not conds) conds fl
termination_by (sizeOf ce, 9, 0)

/-- Rule.get_activations: the isinstance(factlist, FactList) check, the
per-child matches loop (buildMatches), and the for-else product phase, with
tuple(set(..)) modelled as List.dedup. -/
def ruleGetActivations (self : CE) (conds : List CE) (fl : Store) :
    Except EvalErr (List Activation) :=
  if fl.isFactList = false then .error .invalidStore
  else
    match buildMatches conds fl with
    | .error e => .error e
    | .ok none => .ok []
    | .ok (some dims) => .ok (List.dedup (activationsOfDims self dims))
termination_by (sizeOf conds, 5, 0)

/-- The matches-building loop of Rule.get_activations; `.ok none` models the
break (a child with no candidates), after which the for-else product phase is
skipped. -/
def buildMatches (conds : List CE) (fl : Store) :
    Except EvalErr (Option (List (List MEntry))) :=
  match conds with
  | [] => .ok (some [])
  | .pattern p :: rest =>
    let m := fl.matchesFn p
    if m = [] then .ok none
    else
      match buildMatches rest fl with
      | .error e => .error e
      | .ok none => .ok none
      | .ok (some dims) => .ok (some (m :: dims))
  | c :: rest =>
    match get_activations c fl with
    | .error e => .error e
    | .ok acts =>
      if acts = [] then .ok none
      else
        match buildMatches rest fl with
        | .error e => .error e
        | .ok none => .ok none
        | .ok (some dims) => .ok (some (flattenActs acts ++ dims))
termination_by (sizeOf conds, 1, 0)

/-- NOT.get_activations: evaluate the children exactly as the base Rule would;
with no activations, anchor to the first match of InitialFact — an IndexError
on an empty sentinel match list is suppressed (returning no activation), while
a malformed first entry makes the tuple unpacking raise ValueError. -/
def notGetActivations (self : CE) (conds : List CE) (fl : Store) :
    Except EvalErr (List Activation) :=
  match ruleGetActivations self conds fl with
  | .error e => .error e
  | .ok acts =>
    if acts = [] then
      match fl.matchesFn .initial with
      | [] => .ok []
      | .pair r c :: _ => .ok [{ rule := self, facts := [r], contexts := [(r, c)] }]
      | .malformed :: _ => .error .valueError
    else .ok []
termination_by (sizeOf conds, 6, 0)

/-- OR.get_activations: the accidentally nested double loop over conds
accumulating matches, then one Activation whose facts are the first components
of the accumulated entries and whose contexts are empty. -/
def orGetActivations (self : CE) (conds : List CE) (fl : Store) :
    Except EvalErr (List Activation) :=
  match orOuter conds conds.length fl with
  | .error e => .error e
  | .ok ms =>
    if ms = [] then .ok []
    else .ok [{ rule := self, facts := ms.map OREntry.first, contexts := [] }]
termination_by (sizeOf conds, 6, 0)

/-- The outer of the two nested loops of OR.get_activations: the loop variable
is immediately shadowed by the inner loop, so the full inner pass simply runs
once per child. -/
def orOuter (conds : List CE) (n : Nat) (fl : Store) : Except EvalErr (List OREntry) :=
  match n with
  | 0 => .ok []
  | n + 1 =>
    match orInner conds fl with
    | .error e => .error e
    | .ok first =>
      match orOuter conds n fl with
      | .error e => .error e
      | .ok rest => .ok (first ++ rest)
termination_by (sizeOf conds, 3, n)

/-- One pass of the inner loop of OR.get_activations: a composite child with no
activations breaks the pass; a leaf child with no matches is skipped (no
break); a matched leaf child contributes its whole match list as one entry. -/
def orInner (conds : List CE) (fl : Store) : Except EvalErr (List OREntry) :=
  match conds with
  | [] => .ok []
  | .pattern p :: rest =>
    let m := fl.matchesFn p
    if m = [] then orInner rest fl
    else
      match orInner rest fl with
      | .error e => .error e
      | .ok ms => .ok (.leafE m :: ms)
  | c :: rest =>
    match get_activations c fl with
    | .error e => .error e
    | .ok acts =>
      if acts = [] then .ok []
      else
        match orInner rest fl with
        | .error e => .error e
        | .ok ms => .ok (orCompEntries acts ++ ms)
termination_by (sizeOf conds, 2, 0)

end

/-! Concrete working memories used by witnesses and counterexamples. -/

/-- Valid store: pattern 1 matches facts 1 and 2, pattern 2 matches facts 3
and 4, each with a one-variable context. -/
def storeTwoByTwo : Store :=
  { isFactList := true
    matchesFn := fun p => match p with
      | .mk 1 => [.pair (.fid 1) (some [("x", 1)]), .pair (.fid 2) (some [("x", 2)])]
      | .mk 2 => [.pair (.fid 3) (some [("y", 3)]), .pair (.fid 4) (some [("y", 4)])]
      | _ => [] }

/-- Valid store: patterns 1 and 2 match one fact each. -/
def storeOneEach : Store :=
  { isFactList := true
    matchesFn := fun p => match p with
      | .mk 1 => [.pair (.fid 1) (some [])]
      | .mk 2 => [.pair (.fid 2) (some [])]
      | _ => [] }

/-- Valid store: pattern 2 returns a single structurally malformed entry. -/
def storeMalformedOnly : Store :=
  { isFactList := true
    matchesFn := fun p => match p with
      | .mk 1 => [.pair (.fid 1) (some [("x", 1)])]
      | .mk 2 => [.malformed]
      | _ => [] }

/-- Valid store: pattern 2 returns a malformed entry followed by a good one. -/
def storeMalformedPlus : Store :=
  { isFactList := true
    matchesFn := fun p => match p with
      | .mk 1 => [.pair (.fid 1) (some [("x", 1)])]
      | .mk 2 => [.malformed, .pair (.fid 2) (some [("y", 2)])]
      | _ => [] }

/-- Valid store holding only the InitialFact sentinel, at fact id 0. -/
def storeSentinelOnly : Store :=
  { isFactList := true
    matchesFn := fun p => match p with
      | .initial => [.pair (.fid 0) (some [])]
      | _ => [] }

/-- An object that is not a FactList instance but still offers a working
matching method (pattern 1 matches fact 1). -/
def storeNotAFactList : Store :=
  { isFactList := false
    matchesFn := fun p => match p with
      | .mk 1 => [.pair (.fid 1) (some [])]
      | _ => [] }

/-! Helper lemmas on the merge/sort pipeline. -/

theorem dictOfEntries_two (x y : FactRef) (cx cy : Option Ctx) (hxy : x ≠ y) :
    dictOfEntries [.pair x cx, .pair y cy] = some [(x, cx), (y, cy)] := by
  simp [dictOfEntries, pyDict, pyDictInsert, MEntry.isMalformed, MEntry.toPair, hxy]

theorem sortRefs_two (x y : FactRef) :
    sortRefs [x, y] = if FactRef.le x y then [x, y] else [y, x] := by
  simp [sortRefs, insertRef]

theorem tupleToAct_two (self : CE) (x y : FactRef) (cx cy : Option Ctx) (hxy : x ≠ y) :
    tupleToAct self [.pair x cx, .pair y cy] =
      some { rule := self
             facts := if FactRef.le x y then [x, y] else [y, x]
             contexts := [(x, cx), (y, cy)] } := by
  rw [tupleToAct, dictOfEntries_two x y cx cy hxy]
  simp only [Option.getD_some, List.map]
  rw [sortRefs_two]
  split <;> simp

/-- The Activation that AND(P1,P2) owes to selecting matched fact x (from P1,
with context cx) and matched fact y (from P2, with context cy): the two fact
ids in ascending order, the two selected pairs in selection order. -/
def pairSelectionAct (self : CE) (x : Nat) (cx : Option Ctx) (y : Nat) (cy : Option Ctx) :
    Activation :=
  { rule := self
    facts := if x ≤ y then [.fid x, .fid y] else [.fid y, .fid x]
    contexts := [(.fid x, cx), (.fid y, cy)] }

theorem tupleToAct_fid_two (self : CE) (x y : Nat) (cx cy : Option Ctx) (hxy : x ≠ y) :
    tupleToAct self [.pair (.fid x) cx, .pair (.fid y) cy] =
      some (pairSelectionAct self x cx y cy) := by
  rw [tupleToAct_two self (.fid x) (.fid y) cx cy (by simp [hxy])]
  simp [pairSelectionAct, FactRef.le]

theorem pairSelectionAct_keys (self : CE) {x y x' y' : Nat} {cx cy cx' cy' : Option Ctx}
    (h : pairSelectionAct self x cx y cy = pairSelectionAct self x' cx' y' cy') :
    x = x' ∧ y = y' := by
  have h2 := congrArg Activation.contexts h
  simp only [pairSelectionAct, List.cons.injEq, Prod.mk.injEq, FactRef.fid.injEq] at h2
  exact ⟨h2.1.1, h2.2.1.1⟩

theorem pairSelectionAct_ne (self : CE) {x y x' y' : Nat} (cx cy cx' cy' : Option Ctx)
    (hor : x ≠ x' ∨ y ≠ y') :
    pairSelectionAct self x cx y cy ≠ pairSelectionAct self x' cx' y' cy' := by
  intro h
  rcases pairSelectionAct_keys self h with ⟨hx, hy⟩
  cases hor with
  | inl h3 => exact h3 hx
  | inr h3 => exact h3 hy

/-- Computation of the base-Rule/AND evaluation over two leaf children whose
match lists hold two facts each, all four distinct. -/
theorem ruleGA_two_leaf (self : CE) (p1 p2 : Pat) (fl : Store) (a b c d : Nat)
    (ca cb cc cd : Option Ctx)
    (hfl : fl.isFactList = true)
    (h1 : fl.matchesFn p1 = [.pair (.fid a) ca, .pair (.fid b) cb])
    (h2 : fl.matchesFn p2 = [.pair (.fid c) cc, .pair (.fid d) cd])
    (hab : a ≠ b) (hac : a ≠ c) (had : a ≠ d) (hbc : b ≠ c) (hbd : b ≠ d) (hcd : c ≠ d) :
    ruleGetActivations self [.pattern p1, .pattern p2] fl =
      .ok [pairSelectionAct self a ca c cc, pairSelectionAct self a ca d cd,
           pairSelectionAct self b cb c cc, pairSelectionAct self b cb d cd] := by
  have hbm : buildMatches [.pattern p1, .pattern p2] fl =
      .ok (some [[.pair (.fid a) ca, .pair (.fid b) cb],
                 [.pair (.fid c) cc, .pair (.fid d) cd]]) := by
    rw [buildMatches, buildMatches, buildMatches]
    simp [h1, h2]
  rw [ruleGetActivations, hbm]
  simp only [hfl, Bool.true_eq_false, if_false]
  have hacts : activationsOfDims self
      [[.pair (.fid a) ca, .pair (.fid b) cb], [.pair (.fid c) cc, .pair (.fid d) cd]] =
      [pairSelectionAct self a ca c cc, pairSelectionAct self a ca d cd,
       pairSelectionAct self b cb c cc, pairSelectionAct self b cb d cd] := by
    simp only [activationsOfDims, listProd, List.flatMap_cons, List.flatMap_nil,
      List.map_cons, List.map_nil, List.append_nil, List.filterMap]
    rw [tupleToAct_fid_two self a c ca cc hac, tupleToAct_fid_two self a d ca cd had,
        tupleToAct_fid_two self b c cb cc hbc, tupleToAct_fid_two self b d cb cd hbd]
  rw [hacts]
  have hnd : List.Nodup [pairSelectionAct self a ca c cc, pairSelectionAct self a ca d cd,
      pairSelectionAct self b cb c cc, pairSelectionAct self b cb d cd] := by
    simp only [List.nodup_cons, List.mem_cons, List.mem_singleton, List.not_mem_nil,
      or_false, List.nodup_nil, and_true, List.mem_nil_iff]
    refine ⟨?_, ?_, ?_⟩
    · push_neg
      exact ⟨pairSelectionAct_ne self ca cc ca cd (Or.inr hcd),
             pairSelectionAct_ne self ca cc cb cc (Or.inl hab),
             pairSelectionAct_ne self ca cc cb cd (Or.inl hab)⟩
    · push_neg
      exact ⟨pairSelectionAct_ne self ca cd cb cc (Or.inl hab),
             pairSelectionAct_ne self ca cd cb cd (Or.inl hab)⟩
    · exact ⟨pairSelectionAct_ne self cb cc cb cd (Or.inr hcd), not_false⟩
  rw [List.dedup_eq_self.mpr hnd]

/-- C1: for every working memory in which leaf pattern P1 matches exactly the
facts a, b and leaf pattern P2 matches exactly the facts c, d (all distinct),
AND(P1,P2) — and, equivalently, a base Rule with children P1, P2 — yields
exactly the four distinct Activations for the selections (a,c), (a,d), (b,c),
(b,d), each carrying the context merged from its two selected
(factId, Context) pairs. -/
theorem and_cartesian_product (p1 p2 : Pat) (fl : Store) (a b c d : Nat)
    (ca cb cc cd : Option Ctx)
    (hfl : fl.isFactList = true)
    (h1 : fl.matchesFn p1 = [.pair (.fid a) ca, .pair (.fid b) cb])
    (h2 : fl.matchesFn p2 = [.pair (.fid c) cc, .pair (.fid d) cd])
    (hab : a ≠ b) (hac : a ≠ c) (had : a ≠ d) (hbc : b ≠ c) (hbd : b ≠ d) (hcd : c ≠ d) :
    get_activations (.and [.pattern p1, .pattern p2]) fl =
      .ok [pairSelectionAct (.and [.pattern p1, .pattern p2]) a ca c cc,
           pairSelectionAct (.and [.pattern p1, .pattern p2]) a ca d cd,
           pairSelectionAct (.and [.pattern p1, .pattern p2]) b cb c cc,
           pairSelectionAct (.and [.pattern p1, .pattern p2]) b cb d cd] ∧
    get_activations (.rule [.pattern p1, .pattern p2]) fl =
      .ok [pairSelectionAct (.rule [.pattern p1, .pattern p2]) a ca c cc,
           pairSelectionAct (.rule [.pattern p1, .pattern p2]) a ca d cd,
           pairSelectionAct (.rule [.pattern p1, .pattern p2]) b cb c cc,
           pairSelectionAct (.rule [.pattern p1, .pattern p2]) b cb d cd] := by
  constructor
  · rw [get_activations]
    exact ruleGA_two_leaf _ p1 p2 fl a b c d ca cb cc cd hfl h1 h2 hab hac had hbc hbd hcd
  · rw [get_activations]
    exact ruleGA_two_leaf _ p1 p2 fl a b c d ca cb cc cd hfl h1 h2 hab hac had hbc hbd hcd

theorem and_cartesian_product_witness :
    get_activations (.and [.pattern (.mk 1), .pattern (.mk 2)]) storeTwoByTwo =
      .ok [pairSelectionAct (.and [.pattern (.mk 1), .pattern (.mk 2)]) 1 (some [("x", 1)]) 3 (some [("y", 3)]),
           pairSelectionAct (.and [.pattern (.mk 1), .pattern (.mk 2)]) 1 (some [("x", 1)]) 4 (some [("y", 4)]),
           pairSelectionAct (.and [.pattern (.mk 1), .pattern (.mk 2)]) 2 (some [("x", 2)]) 3 (some [("y", 3)]),
           pairSelectionAct (.and [.pattern (.mk 1), .pattern (.mk 2)]) 2 (some [("x", 2)]) 4 (some [("y", 4)])] :=
  (and_cartesian_product (.mk 1) (.mk 2) storeTwoByTwo 1 2 3 4
    (some [("x", 1)]) (some [("x", 2)]) (some [("y", 3)]) (some [("y", 4)])
    rfl rfl rfl
    (by decide) (by decide) (by decide) (by decide) (by decide) (by decide)).1

theorem tupleToAct_fid_one (self : CE) (x : Nat) (cx : Option Ctx) :
    tupleToAct self [.pair (.fid x) cx] =
      some { rule := self, facts := [.fid x], contexts := [(.fid x, cx)] } := by
  simp [tupleToAct, dictOfEntries, pyDict, pyDictInsert, MEntry.isMalformed,
    MEntry.toPair, sortRefs, insertRef]

/-- Base-Rule/AND evaluation over one leaf child matching two distinct facts:
one single-fact Activation per matched pair. -/
theorem ruleGA_one_leaf_two (self : CE) (q : Pat) (fl : Store) (f1 f2 : Nat)
    (c1 c2 : Option Ctx)
    (hfl : fl.isFactList = true)
    (hq : fl.matchesFn q = [.pair (.fid f1) c1, .pair (.fid f2) c2])
    (hne : f1 ≠ f2) :
    ruleGetActivations self [.pattern q] fl =
      .ok [{ rule := self, facts := [.fid f1], contexts := [(.fid f1, c1)] },
           { rule := self, facts := [.fid f2], contexts := [(.fid f2, c2)] }] := by
  have hbm : buildMatches [.pattern q] fl =
      .ok (some [[.pair (.fid f1) c1, .pair (.fid f2) c2]]) := by
    rw [buildMatches, buildMatches]
    simp [hq]
  rw [ruleGetActivations, hbm]
  simp only [hfl, Bool.true_eq_false, if_false]
  have hacts : activationsOfDims self [[.pair (.fid f1) c1, .pair (.fid f2) c2]] =
      [{ rule := self, facts := [.fid f1], contexts := [(.fid f1, c1)] },
       { rule := self, facts := [.fid f2], contexts := [(.fid f2, c2)] }] := by
    simp only [activationsOfDims, listProd, List.flatMap_cons, List.flatMap_nil,
      List.map_cons, List.map_nil, List.append_nil, List.filterMap]
    rw [tupleToAct_fid_one, tupleToAct_fid_one]
  rw [hacts]
  rw [List.dedup_eq_self.mpr (by simp [Activation.mk.injEq, hne])]

/-- The matches list a conjunction builds for a single composite child covering
two facts: each flattened pair is its own singleton dimension. -/
theorem buildMatches_nested_rule (q : Pat) (fl : Store) (f1 f2 : Nat)
    (c1 c2 : Option Ctx)
    (hfl : fl.isFactList = true)
    (hq : fl.matchesFn q = [.pair (.fid f1) c1, .pair (.fid f2) c2])
    (hne : f1 ≠ f2) :
    buildMatches [.rule [.pattern q]] fl =
      .ok (some [[.pair (.fid f1) c1], [.pair (.fid f2) c2]]) := by
  have hch : get_activations (.rule [.pattern q]) fl =
      .ok [{ rule := .rule [.pattern q], facts := [.fid f1], contexts := [(.fid f1, c1)] },
           { rule := .rule [.pattern q], facts := [.fid f2], contexts := [(.fid f2, c2)] }] := by
    rw [get_activations]
    exact ruleGA_one_leaf_two _ q fl f1 f2 c1 c2 hfl hq hne
  rw [buildMatches, hch]
  rw [buildMatches]
  simp [flattenActs, pyDict, pyDictInsert, pyGet]
  intro p h
  exact CE.noConfusion h

/-- Evaluation of a conjunction whose single child is a nested Rule over one
leaf pattern matching two distinct facts: one Activation holding both facts. -/
theorem ruleGA_nested_rule (q : Pat) (fl : Store) (f1 f2 : Nat) (c1 c2 : Option Ctx)
    (hfl : fl.isFactList = true)
    (hq : fl.matchesFn q = [.pair (.fid f1) c1, .pair (.fid f2) c2])
    (hne : f1 ≠ f2) :
    get_activations (.rule [.rule [.pattern q]]) fl =
      .ok [pairSelectionAct (.rule [.rule [.pattern q]]) f1 c1 f2 c2] := by
  rw [get_activations, ruleGetActivations,
    buildMatches_nested_rule q fl f1 f2 c1 c2 hfl hq hne]
  simp only [hfl, Bool.true_eq_false, if_false]
  have hacts : activationsOfDims (.rule [.rule [.pattern q]])
      [[.pair (.fid f1) c1], [.pair (.fid f2) c2]] =
      [pairSelectionAct (.rule [.rule [.pattern q]]) f1 c1 f2 c2] := by
    simp only [activationsOfDims, listProd, List.flatMap_cons, List.flatMap_nil,
      List.map_cons, List.map_nil, List.append_nil, List.filterMap]
    rw [tupleToAct_fid_two _ f1 f2 c1 c2 hne]
  rw [hacts]
  rw [List.dedup_eq_self.mpr (List.nodup_singleton _)]

/-- The flattened (factId, Context) pairs of a composite child's activations,
collected into ONE flat list — the single candidate list C2 describes. -/
def flattenPairs (acts : List Activation) : List MEntry :=
  acts.flatMap (fun a =>
    a.facts.map (fun f => MEntry.pair f ((pyGet (pyDict a.contexts) f).getD none)))

/-- C2's reading of the matches loop, written from the claim's words for
comparison with buildMatches: a composite child contributes all of its
flattened (factId, Context) pairs as a single candidate list, i.e. exactly one
dimension of the combination problem per child; leaf children are unchanged. -/
def buildMatchesClaim (conds : List CE) (fl : Store) :
    Except EvalErr (Option (List (List MEntry))) :=
  match conds with
  | [] => .ok (some [])
  | .pattern p :: rest =>
    let m := fl.matchesFn p
    if m = [] then .ok none
    else
      match buildMatchesClaim rest fl with
      | .error e => .error e
      | .ok none => .ok none
      | .ok (some dims) => .ok (some (m :: dims))
  | c :: rest =>
    match get_activations c fl with
    | .error e => .error e
    | .ok acts =>
      if acts = [] then .ok none
      else
        match buildMatchesClaim rest fl with
        | .error e => .error e
        | .ok none => .ok none
        | .ok (some dims) => .ok (some (flattenPairs acts :: dims))

/-- C2 counterexample: on a store where a single composite child covers the two
facts 1 and 2, the matches list actually built differs from the claim's
one-dimension-per-child list, and the conjunction yields one Activation
containing BOTH facts instead of one single-fact Activation per flattened
pair. -/
theorem composite_child_single_dimension_cex :
    buildMatches [.rule [.pattern (.mk 1)]] storeTwoByTwo ≠
      buildMatchesClaim [.rule [.pattern (.mk 1)]] storeTwoByTwo ∧
    get_activations (.rule [.rule [.pattern (.mk 1)]]) storeTwoByTwo =
      .ok [pairSelectionAct (.rule [.rule [.pattern (.mk 1)]])
            1 (some [("x", 1)]) 2 (some [("x", 2)])] := by
  have hbm := buildMatches_nested_rule (.mk 1) storeTwoByTwo 1 2
    (some [("x", 1)]) (some [("x", 2)]) rfl rfl (by decide)
  have hch : get_activations (.rule [.pattern (.mk 1)]) storeTwoByTwo =
      .ok [{ rule := .rule [.pattern (.mk 1)], facts := [.fid 1],
             contexts := [(.fid 1, some [("x", 1)])] },
           { rule := .rule [.pattern (.mk 1)], facts := [.fid 2],
             contexts := [(.fid 2, some [("x", 2)])] }] := by
    rw [get_activations]
    exact ruleGA_one_leaf_two _ (.mk 1) storeTwoByTwo 1 2
      (some [("x", 1)]) (some [("x", 2)]) rfl rfl (by decide)
  have hcl : buildMatchesClaim [.rule [.pattern (.mk 1)]] storeTwoByTwo =
      .ok (some [[.pair (.fid 1) (some [("x", 1)]), .pair (.fid 2) (some [("x", 2)])]]) := by
    rw [buildMatchesClaim, hch]
    rw [buildMatchesClaim]
    simp [flattenPairs, pyDict, pyDictInsert, pyGet]
    intro p h
    exact CE.noConfusion h
  refine ⟨?_, ruleGA_nested_rule (.mk 1) storeTwoByTwo 1 2
    (some [("x", 1)]) (some [("x", 2)]) rfl rfl (by decide)⟩
  rw [hbm, hcl]
  simp

/-- C2 amended: in a conjunction, a composite child does NOT contribute one
dimension; every flattened (factId, Context) pair of its activations becomes
its own singleton candidate list, so each tuple of the Cartesian product
contains all of the child's flattened pairs.  In particular a Rule whose single
composite child covers two distinct facts yields one Activation holding both
facts and both contexts. -/
theorem composite_child_pairs_singleton_dims (q : Pat) (fl : Store) (f1 f2 : Nat)
    (c1 c2 : Option Ctx)
    (hfl : fl.isFactList = true)
    (hq : fl.matchesFn q = [.pair (.fid f1) c1, .pair (.fid f2) c2])
    (hne : f1 ≠ f2) :
    buildMatches [.rule [.pattern q]] fl =
      .ok (some [[.pair (.fid f1) c1], [.pair (.fid f2) c2]]) ∧
    get_activations (.rule [.rule [.pattern q]]) fl =
      .ok [pairSelectionAct (.rule [.rule [.pattern q]]) f1 c1 f2 c2] :=
  ⟨buildMatches_nested_rule q fl f1 f2 c1 c2 hfl hq hne,
   ruleGA_nested_rule q fl f1 f2 c1 c2 hfl hq hne⟩

theorem composite_child_pairs_singleton_dims_witness :
    buildMatches [.rule [.pattern (.mk 1)]] storeTwoByTwo =
      .ok (some [[.pair (.fid 1) (some [("x", 1)])], [.pair (.fid 2) (some [("x", 2)])]]) ∧
    get_activations (.rule [.rule [.pattern (.mk 1)]]) storeTwoByTwo =
      .ok [pairSelectionAct (.rule [.rule [.pattern (.mk 1)]])
            1 (some [("x", 1)]) 2 (some [("x", 2)])] :=
  composite_child_pairs_singleton_dims (.mk 1) storeTwoByTwo 1 2
    (some [("x", 1)]) (some [("x", 2)]) rfl rfl (by decide)

/-- C3: evaluation of OR over two leaf patterns matching one fact each, on a
valid store.  Because the loop over the children is accidentally nested (the
duplicated for statement shadows its own loop variable), every child is
processed once per child, and because a leaf child's whole match list is
appended as a single element whose element 0 then feeds facts, the resulting
Activation's facts are (factId, Context) PAIRS, each repeated once per outer
pass — not the two matched fact identifiers accumulated once each. -/
theorem or_double_loop_eval :
    get_activations (.or [.pattern (.mk 1), .pattern (.mk 2)]) storeOneEach =
      .ok [{ rule := .or [.pattern (.mk 1), .pattern (.mk 2)],
             facts := [.pairRef (.fid 1) (some []), .pairRef (.fid 2) (some []),
                       .pairRef (.fid 1) (some []), .pairRef (.fid 2) (some [])],
             contexts := [] }] := by
  have hin : orInner [.pattern (.mk 1), .pattern (.mk 2)] storeOneEach =
      .ok [.leafE [.pair (.fid 1) (some [])], .leafE [.pair (.fid 2) (some [])]] := by
    rw [orInner, orInner, orInner]
    simp [storeOneEach]
  rw [get_activations, orGetActivations]
  rw [show ([CE.pattern (.mk 1), CE.pattern (.mk 2)]).length = 2 from rfl]
  rw [orOuter, hin, orOuter, hin, orOuter]
  simp [OREntry.first, mEntryRef]

/-- C4: for every working memory, NOT yields zero Activations when its wrapped
conjunction (evaluated exactly as the base Rule would) has one or more
Activations; when it has zero, NOT yields exactly one Activation anchored to
the first InitialFact match (facts = that fact id, contexts = that single
pair); and when the sentinel cannot be located (empty sentinel match list) NOT
yields zero Activations instead of raising. -/
theorem not_negation_as_failure (conds : List CE) (fl : Store) :
    (∀ acts, ruleGetActivations (.not conds) conds fl = .ok acts → acts ≠ [] →
      get_activations (.not conds) fl = .ok []) ∧
    (ruleGetActivations (.not conds) conds fl = .ok [] → ∀ r c rest,
      fl.matchesFn .initial = .pair r c :: rest →
      get_activations (.not conds) fl =
        .ok [{ rule := .not conds, facts := [r], contexts := [(r, c)] }]) ∧
    (ruleGetActivations (.not conds) conds fl = .ok [] → fl.matchesFn .initial = [] →
      get_activations (.not conds) fl = .ok []) := by
  refine ⟨?_, ?_, ?_⟩
  · intro acts h hne
    rw [get_activations, notGetActivations, h]
    simp [hne]
  · intro h r c rest hm
    rw [get_activations, notGetActivations, h]
    simp only [if_pos rfl]
    rw [hm]
    simp
  · intro h hm
    rw [get_activations, notGetActivations, h]
    simp only [if_pos rfl]
    rw [hm]
    simp

theorem not_negation_as_failure_witness :
    get_activations (.not [.pattern (.mk 5)]) storeSentinelOnly =
      .ok [{ rule := .not [.pattern (.mk 5)], facts := [.fid 0],
             contexts := [(.fid 0, some [])] }] := by
  have hbase : ruleGetActivations (.not [.pattern (.mk 5)]) [.pattern (.mk 5)]
      storeSentinelOnly = .ok [] := by
    rw [ruleGetActivations, buildMatches]
    simp [storeSentinelOnly]
  exact (not_negation_as_failure [.pattern (.mk 5)] storeSentinelOnly).2.1 hbase
    (.fid 0) (some []) [] rfl

/-- A child with zero matches: a leaf pattern matching no facts, or a composite
child whose activation set is empty. -/
def condFails (c : CE) (fl : Store) : Prop :=
  match c with
  | .pattern p => fl.matchesFn p = []
  | _ => get_activations c fl = .ok []

/-- A child that evaluates without raising: leaf patterns always do; a
composite child must return some activation tuple. -/
def condOk (c : CE) (fl : Store) : Prop :=
  match c with
  | .pattern _ => True
  | _ => ∃ acts, get_activations c fl = .ok acts

/-- The matches loop reports the break as soon as some child has zero matches,
whatever comes after it. -/
theorem buildMatches_break (fl : Store) (pre : List CE) (c : CE) (suf : List CE)
    (hok : ∀ x ∈ pre, condOk x fl) (hfail : condFails c fl) :
    buildMatches (pre ++ c :: suf) fl = .ok none := by
  induction pre with
  | nil =>
    simp only [List.nil_append]
    cases c with
    | pattern p =>
      rw [buildMatches]
      simp only [condFails] at hfail
      simp [hfail]
    | rule cs =>
      simp only [condFails] at hfail
      rw [buildMatches, hfail]
      · simp
      · intro p h; exact CE.noConfusion h
    | and cs =>
      simp only [condFails] at hfail
      rw [buildMatches, hfail]
      · simp
      · intro p h; exact CE.noConfusion h
    | or cs =>
      simp only [condFails] at hfail
      rw [buildMatches, hfail]
      · simp
      · intro p h; exact CE.noConfusion h
    | not cs =>
      simp only [condFails] at hfail
      rw [buildMatches, hfail]
      · simp
      · intro p h; exact CE.noConfusion h
  | cons x pre ih =>
    have hokx : condOk x fl := hok x (by simp)
    have ihr := ih (fun y hy => hok y (by simp [hy]))
    rw [List.cons_append]
    cases x with
    | pattern p =>
      rw [buildMatches]
      by_cases hm : fl.matchesFn p = []
      · simp [hm]
      · simp only [hm, if_false]
        rw [ihr]
    | rule cs =>
      obtain ⟨acts, hacts⟩ := hokx
      rw [buildMatches, hacts]
      · by_cases he : acts = []
        · simp [he]
        · simp only [he, if_false]
          rw [ihr]
      · intro p h; exact CE.noConfusion h
    | and cs =>
      obtain ⟨acts, hacts⟩ := hokx
      rw [buildMatches, hacts]
      · by_cases he : acts = []
        · simp [he]
        · simp only [he, if_false]
          rw [ihr]
      · intro p h; exact CE.noConfusion h
    | or cs =>
      obtain ⟨acts, hacts⟩ := hokx
      rw [buildMatches, hacts]
      · by_cases he : acts = []
        · simp [he]
        · simp only [he, if_false]
          rw [ihr]
      · intro p h; exact CE.noConfusion h
    | not cs =>
      obtain ⟨acts, hacts⟩ := hokx
      rw [buildMatches, hacts]
      · by_cases he : acts = []
        · simp [he]
        · simp only [he, if_false]
          rw [ihr]
      · intro p h; exact CE.noConfusion h

/-- C5: if any child of a conjunction (base Rule or AND) has zero matches — a
leaf pattern matching no facts or a composite child with an empty activation
set — and the children before it evaluate without raising, the conjunction
yields zero Activations, regardless of the children after it (which are never
evaluated: the suffix is arbitrary and unconstrained). -/
theorem and_short_circuit (fl : Store) (pre : List CE) (c : CE) (suf : List CE)
    (hfl : fl.isFactList = true)
    (hok : ∀ x ∈ pre, condOk x fl) (hfail : condFails c fl) :
    get_activations (.rule (pre ++ c :: suf)) fl = .ok [] ∧
    get_activations (.and (pre ++ c :: suf)) fl = .ok [] := by
  have hb := buildMatches_break fl pre c suf hok hfail
  constructor
  · rw [get_activations, ruleGetActivations, hb]
    simp [hfl]
  · rw [get_activations, ruleGetActivations, hb]
    simp [hfl]

theorem and_short_circuit_witness :
    get_activations (.rule ([.pattern (.mk 1)] ++ .pattern (.mk 9) :: [.pattern (.mk 2)]))
      storeTwoByTwo = .ok [] ∧
    get_activations (.and ([.pattern (.mk 1)] ++ .pattern (.mk 9) :: [.pattern (.mk 2)]))
      storeTwoByTwo = .ok [] :=
  and_short_circuit storeTwoByTwo [.pattern (.mk 1)] (.pattern (.mk 9)) [.pattern (.mk 2)]
    rfl (by intro x hx; simp at hx; subst hx; trivial) rfl

theorem tupleToAct_malformed (self : CE) (t : List MEntry)
    (h : t.any MEntry.isMalformed = true) : tupleToAct self t = none := by
  simp [tupleToAct, dictOfEntries, h, sortRefs]

/-- C6 counterexample: pattern 1 matches fact 1 with a binding, pattern 2
returns a single malformed entry.  The only product tuple contains the
malformed pairing; the suppressed ValueError replaces the WHOLE merged mapping
by the empty dict, so facts is empty and the tuple is discarded: the
conjunction yields zero Activations, where the claim predicts the match
survives with the malformed binding degraded to no extra bindings. -/
theorem malformed_binding_aborts_match_cex :
    get_activations (.rule [.pattern (.mk 1), .pattern (.mk 2)]) storeMalformedOnly =
      .ok [] := by
  have hbm : buildMatches [.pattern (.mk 1), .pattern (.mk 2)] storeMalformedOnly =
      .ok (some [[.pair (.fid 1) (some [("x", 1)])], [.malformed]]) := by
    rw [buildMatches, buildMatches, buildMatches]
    simp [storeMalformedOnly]
  rw [get_activations, ruleGetActivations, hbm]
  simp only [Bool.true_eq_false, if_false, show storeMalformedOnly.isFactList = true from rfl]
  have hacts : activationsOfDims (.rule [.pattern (.mk 1), .pattern (.mk 2)])
      [[.pair (.fid 1) (some [("x", 1)])], [.malformed]] = [] := by
    simp only [activationsOfDims, listProd, List.flatMap_cons, List.flatMap_nil,
      List.map_cons, List.map_nil, List.append_nil, List.filterMap]
    rw [tupleToAct_malformed _ _ (by decide)]
  rw [hacts]
  rfl

/-- C6 amended: a structurally invalid pairing in a product tuple makes the
suppressed ValueError replace that tuple's entire merged mapping by the empty
dict, so the tuple yields NO Activation at all (the match is discarded, not
degraded to empty bindings); tuples without a malformed pairing and the rest
of the evaluation are unaffected. -/
theorem malformed_binding_discards_tuple (p1 p2 : Pat) (fl : Store) (f1 f2 : Nat)
    (c1 c2 : Option Ctx)
    (hfl : fl.isFactList = true)
    (h1 : fl.matchesFn p1 = [.pair (.fid f1) c1])
    (h2 : fl.matchesFn p2 = [.malformed, .pair (.fid f2) c2])
    (hne : f1 ≠ f2) :
    get_activations (.rule [.pattern p1, .pattern p2]) fl =
      .ok [pairSelectionAct (.rule [.pattern p1, .pattern p2]) f1 c1 f2 c2] := by
  have hbm : buildMatches [.pattern p1, .pattern p2] fl =
      .ok (some [[.pair (.fid f1) c1], [.malformed, .pair (.fid f2) c2]]) := by
    rw [buildMatches, buildMatches, buildMatches]
    simp [h1, h2]
  rw [get_activations, ruleGetActivations, hbm]
  simp only [hfl, Bool.true_eq_false, if_false]
  have hacts : activationsOfDims (.rule [.pattern p1, .pattern p2])
      [[.pair (.fid f1) c1], [.malformed, .pair (.fid f2) c2]] =
      [pairSelectionAct (.rule [.pattern p1, .pattern p2]) f1 c1 f2 c2] := by
    simp only [activationsOfDims, listProd, List.flatMap_cons, List.flatMap_nil,
      List.map_cons, List.map_nil, List.append_nil, List.filterMap]
    rw [tupleToAct_malformed _ [.pair (.fid f1) c1, .malformed] (by simp [MEntry.isMalformed])]
    rw [tupleToAct_fid_two _ f1 f2 c1 c2 hne]
  rw [hacts]
  rw [List.dedup_eq_self.mpr (List.nodup_singleton _)]

theorem malformed_binding_discards_tuple_witness :
    get_activations (.rule [.pattern (.mk 1), .pattern (.mk 2)]) storeMalformedPlus =
      .ok [pairSelectionAct (.rule [.pattern (.mk 1), .pattern (.mk 2)])
            1 (some [("x", 1)]) 2 (some [("y", 2)])] :=
  malformed_binding_discards_tuple (.mk 1) (.mk 2) storeMalformedPlus 1 2
    (some [("x", 1)]) (some [("y", 2)]) rfl rfl rfl (by decide)

theorem orInner_leaf_ok (fl : Store) (ps : List Pat) :
    ∃ ms, orInner (ps.map .pattern) fl = .ok ms := by
  induction ps with
  | nil => exact ⟨[], by rw [List.map_nil, orInner]⟩
  | cons p rest ih =>
    obtain ⟨ms, hms⟩ := ih
    rw [List.map_cons, orInner]
    by_cases hm : fl.matchesFn p = []
    · exact ⟨ms, by simp [hm, hms]⟩
    · refine ⟨.leafE (fl.matchesFn p) :: ms, ?_⟩
      simp [hm, hms]

theorem orOuter_leaf_ok (fl : Store) (ps : List Pat) (n : Nat) :
    ∃ ms, orOuter (ps.map .pattern) n fl = .ok ms := by
  induction n with
  | zero => exact ⟨[], by rw [orOuter]⟩
  | succ n ih =>
    obtain ⟨ms, hms⟩ := ih
    obtain ⟨first, hfirst⟩ := orInner_leaf_ok fl ps
    refine ⟨first ++ ms, ?_⟩
    rw [orOuter, hfirst, hms]

/-- C7 counterexample: OR.get_activations performs no store validation.  On an
object that is not a FactList instance but offers a matching method, OR over a
leaf pattern succeeds and returns an Activation — it does not raise the
invalid-store error, while base Rule on the same object does. -/
theorem or_invalid_store_cex :
    get_activations (.or [.pattern (.mk 1)]) storeNotAFactList =
      .ok [{ rule := .or [.pattern (.mk 1)],
             facts := [.pairRef (.fid 1) (some [])], contexts := [] }] ∧
    get_activations (.rule [.pattern (.mk 1)]) storeNotAFactList =
      .error .invalidStore := by
  constructor
  · have hin : orInner [.pattern (.mk 1)] storeNotAFactList =
        .ok [.leafE [.pair (.fid 1) (some [])]] := by
      rw [orInner, orInner]
      simp [storeNotAFactList]
    rw [get_activations, orGetActivations]
    rw [show ([CE.pattern (.mk 1)]).length = 1 from rfl]
    rw [orOuter, hin, orOuter]
    simp [OREntry.first, mEntryRef]
  · rw [get_activations, ruleGetActivations]
    rfl

/-- C7 amended: the isinstance(factlist, FactList) check covers the base Rule,
AND and NOT (NOT through its super() call): each raises the invalid-store
error immediately on a non-FactList argument.  OR overrides get_activations
WITHOUT any store validation: over leaf-pattern children it never raises the
invalid-store error, whatever the argument. -/
theorem invalid_store_check (conds : List CE) (fl : Store)
    (hfl : fl.isFactList = false) :
    get_activations (.rule conds) fl = .error .invalidStore ∧
    get_activations (.and conds) fl = .error .invalidStore ∧
    get_activations (.not conds) fl = .error .invalidStore ∧
    (∀ ps : List Pat, ∃ res, get_activations (.or (ps.map .pattern)) fl = .ok res) := by
  have hr : ∀ self, ruleGetActivations self conds fl = .error .invalidStore := by
    intro self
    rw [ruleGetActivations]
    simp [hfl]
  refine ⟨?_, ?_, ?_, ?_⟩
  · rw [get_activations]; exact hr _
  · rw [get_activations]; exact hr _
  · rw [get_activations, notGetActivations, hr (.not conds)]
  · intro ps
    obtain ⟨ms, hms⟩ := orOuter_leaf_ok fl ps (ps.map CE.pattern).length
    by_cases hempty : ms = []
    · refine ⟨[], ?_⟩
      rw [get_activations, orGetActivations, hms]
      simp [hempty]
    · refine ⟨[{ rule := .or (ps.map .pattern), facts := ms.map OREntry.first,
                 contexts := [] }], ?_⟩
      rw [get_activations, orGetActivations, hms]
      simp [hempty]

theorem invalid_store_check_witness :
    get_activations (.rule [.pattern (.mk 1)]) storeNotAFactList = .error .invalidStore ∧
    get_activations (.and [.pattern (.mk 1)]) storeNotAFactList = .error .invalidStore ∧
    get_activations (.not [.pattern (.mk 1)]) storeNotAFactList = .error .invalidStore ∧
    (∀ ps : List Pat, ∃ res,
      get_activations (.or (ps.map .pattern)) storeNotAFactList = .ok res) :=
  invalid_store_check [.pattern (.mk 1)] storeNotAFactList rfl

/-- Errors raised by Rule.__call__: attributeError is the
AttributeError("Mandatory function not provided.") of an unbound consequence;
typeError is the TypeError of kwargs.update(None) when an activation stores
None as the context of a referenced fact. -/
inductive CallErr where
  | attributeError
  | typeError
deriving DecidableEq, Repr

/-- The observable outcome of Rule.__call__: either the call bound its first
positional argument as the consequence and returned the rule (phase 1), or it
invoked the already-bound consequence with the given positional arguments and
merged keyword bindings (phase 2). -/
inductive CallOutcome where
  | bound (fn : Nat)
  | invoked (fn : Nat) (args : List Nat) (kwargs : List (String × Nat))
deriving DecidableEq, Repr

/-- kwargs.update(context): merge a Context into the keyword dict, last write
wins per key. -/
def kwUpdate (kw : List (String × Nat)) (c : Ctx) : List (String × Nat) :=
  c.foldl (fun d kv => pyDictInsert d kv.1 kv.2) kw

/-- The activation preprocessing of Rule.__call__: contexts = dict(
activation.contexts), then for each fact of activation.facts,
kwargs.update(contexts.get(fact, empty)); a stored None context raises
TypeError. -/
def mergeActivationKwargs (kw : List (String × Nat)) (act : Activation) :
    Except CallErr (List (String × Nat)) :=
  let contexts := pyDict act.contexts
  act.facts.foldlM (fun d f =>
    match pyGet contexts f with
    | none => .ok d
    | some none => .error .typeError
    | some (some c) => .ok (kwUpdate d c)) kw

/-- Rule.__call__: activation kwargs are merged first; then, if no consequence
was ever bound, a present first positional argument is recorded as the
consequence (returning the rule itself), and a missing one raises the
unbound-consequence AttributeError; with a bound consequence the call invokes
it on the positional arguments and merged kwargs.  Consequence functions and
positional values are modelled as opaque naturals. -/
def ruleCall (fn : Option Nat) (fst : Option Nat) (args : List Nat)
    (activation : Option Activation) (kwargs : List (String × Nat)) :
    Except CallErr CallOutcome :=
  match (match activation with
         | some act => mergeActivationKwargs kwargs act
         | none => .ok kwargs) with
  | .error e => .error e
  | .ok kw =>
    match fn with
    | none =>
      match fst with
      | some f => .ok (.bound f)
      | none => .error .attributeError
    | some f =>
      .ok (.invoked f ((match fst with | none => [] | some v => [v]) ++ args) kw)

/-- An Activation used by the call-protocol examples: it references fact 0
with an empty (but present) context. -/
def actSentinel : Activation :=
  { rule := .rule [.pattern .initial], facts := [.fid 0], contexts := [(.fid 0, some [])] }

/-- C8 counterexample: a CE on which no consequence was ever bound, invoked as
an action carrying both a resolved Activation and a first positional argument,
does NOT fail with the unbound-consequence error: it silently records the
positional argument as the consequence (phase 1) and returns the rule. -/
theorem unbound_call_binds_cex :
    ruleCall none (some 7) [] (some actSentinel) [] = .ok (.bound 7) := by
  rfl

/-- C8 amended: an unbound CE invoked as an action fails with the
unbound-consequence error exactly when no first positional argument is
supplied (and the activation-context merge itself succeeds); when a first
positional argument is present, the call instead binds it as the consequence
and returns the CE, even when a resolved Activation accompanies the call. -/
theorem unbound_consequence_error_conditions (act : Activation) (args : List Nat)
    (kwargs kw : List (String × Nat))
    (hmerge : mergeActivationKwargs kwargs act = .ok kw) :
    ruleCall none none args (some act) kwargs = .error .attributeError ∧
    (∀ v, ruleCall none (some v) args (some act) kwargs = .ok (.bound v)) ∧
    (∀ args2 kwargs2, ruleCall none none args2 none kwargs2 = .error .attributeError) := by
  refine ⟨?_, ?_, ?_⟩
  · rw [ruleCall, hmerge]
  · intro v
    rw [ruleCall, hmerge]
  · intro args2 kwargs2
    rw [ruleCall]

theorem unbound_consequence_error_conditions_witness :
    ruleCall none none [] (some actSentinel) [] = .error .attributeError ∧
    (∀ v, ruleCall none (some v) [] (some actSentinel) [] = .ok (.bound v)) ∧
    (∀ args2 kwargs2, ruleCall none none args2 none kwargs2 = .error .attributeError) :=
  unbound_consequence_error_conditions actSentinel [] [] [] rfl

theorem ruleGA_nodup (self : CE) (conds : List CE) (fl : Store)
    (acts : List Activation) (h : ruleGetActivations self conds fl = .ok acts) :
    acts.Nodup := by
  rw [ruleGetActivations] at h
  by_cases hfl : fl.isFactList = false
  · rw [if_pos hfl] at h
    cases h
  · rw [if_neg hfl] at h
    cases hbm : buildMatches conds fl with
    | error e => rw [hbm] at h; cases h
    | ok o =>
      rw [hbm] at h
      cases o with
      | none =>
        injection h with h2
        rw [← h2]
        exact List.nodup_nil
      | some dims =>
        injection h with h2
        rw [← h2]
        exact List.nodup_dedup _

/-- C9: every collection of Activations a CE evaluation returns is free of
structural duplicates: base Rule and AND pass the generated activations
through set() (dedup), and OR and NOT return at most a single Activation. -/
theorem activation_sets_nodup (ce : CE) (fl : Store) (acts : List Activation)
    (h : get_activations ce fl = .ok acts) : acts.Nodup := by
  cases ce with
  | pattern p => rw [get_activations] at h; cases h
  | rule conds => rw [get_activations] at h; exact ruleGA_nodup _ conds fl acts h
  | and conds => rw [get_activations] at h; exact ruleGA_nodup _ conds fl acts h
  | or conds =>
    rw [get_activations, orGetActivations] at h
    cases hms : orOuter conds conds.length fl with
    | error e => rw [hms] at h; cases h
    | ok ms =>
      rw [hms] at h
      dsimp only at h
      by_cases hempty : ms = []
      · rw [if_pos hempty] at h
        injection h with h2
        rw [← h2]
        exact List.nodup_nil
      · rw [if_neg hempty] at h
        injection h with h2
        rw [← h2]
        exact List.nodup_singleton _
  | not conds =>
    rw [get_activations, notGetActivations] at h
    cases hr : ruleGetActivations (.not conds) conds fl with
    | error e => rw [hr] at h; cases h
    | ok bas =>
      rw [hr] at h
      dsimp only at h
      by_cases hempty : bas = []
      · rw [if_pos hempty] at h
        cases hm : fl.matchesFn .initial with
        | nil =>
          rw [hm] at h
          injection h with h2
          rw [← h2]
          exact List.nodup_nil
        | cons e rest =>
          rw [hm] at h
          cases e with
          | pair r c =>
            injection h with h2
            rw [← h2]
            exact List.nodup_singleton _
          | malformed => cases h
      · rw [if_neg hempty] at h
        injection h with h2
        rw [← h2]
        exact List.nodup_nil

theorem activation_sets_nodup_witness :
    (get_activations (.and [.pattern (.mk 1), .pattern (.mk 2)]) storeTwoByTwo =
      .ok [pairSelectionAct (.and [.pattern (.mk 1), .pattern (.mk 2)]) 1 (some [("x", 1)]) 3 (some [("y", 3)]),
           pairSelectionAct (.and [.pattern (.mk 1), .pattern (.mk 2)]) 1 (some [("x", 1)]) 4 (some [("y", 4)]),
           pairSelectionAct (.and [.pattern (.mk 1), .pattern (.mk 2)]) 2 (some [("x", 2)]) 3 (some [("y", 3)]),
           pairSelectionAct (.and [.pattern (.mk 1), .pattern (.mk 2)]) 2 (some [("x", 2)]) 4 (some [("y", 4)])]) ∧
    List.Nodup [pairSelectionAct (.and [.pattern (.mk 1), .pattern (.mk 2)]) 1 (some [("x", 1)]) 3 (some [("y", 3)]),
           pairSelectionAct (.and [.pattern (.mk 1), .pattern (.mk 2)]) 1 (some [("x", 1)]) 4 (some [("y", 4)]),
           pairSelectionAct (.and [.pattern (.mk 1), .pattern (.mk 2)]) 2 (some [("x", 2)]) 3 (some [("y", 3)]),
           pairSelectionAct (.and [.pattern (.mk 1), .pattern (.mk 2)]) 2 (some [("x", 2)]) 4 (some [("y", 4)])] := by
  have heq : get_activations (.and [.pattern (.mk 1), .pattern (.mk 2)]) storeTwoByTwo =
      .ok [pairSelectionAct (.and [.pattern (.mk 1), .pattern (.mk 2)]) 1 (some [("x", 1)]) 3 (some [("y", 3)]),
           pairSelectionAct (.and [.pattern (.mk 1), .pattern (.mk 2)]) 1 (some [("x", 1)]) 4 (some [("y", 4)]),
           pairSelectionAct (.and [.pattern (.mk 1), .pattern (.mk 2)]) 2 (some [("x", 2)]) 3 (some [("y", 3)]),
           pairSelectionAct (.and [.pattern (.mk 1), .pattern (.mk 2)]) 2 (some [("x", 2)]) 4 (some [("y", 4)])] := by
    rw [get_activations]
    exact ruleGA_two_leaf _ (.mk 1) (.mk 2) storeTwoByTwo 1 2 3 4
      (some [("x", 1)]) (some [("x", 2)]) (some [("y", 3)]) (some [("y", 4)])
      rfl rfl rfl (by decide) (by decide) (by decide) (by decide) (by decide) (by decide)
  exact ⟨heq, activation_sets_nodup _ storeTwoByTwo _ heq⟩

/-- C10: when the first child of an OR is a composite CE whose evaluation
yields zero activations, the (inner) loop breaks at it on every pass, so OR
returns zero Activations no matter what the later children would match. -/
theorem or_first_composite_empty (c : CE) (rest : List CE) (fl : Store)
    (hcomp : ∀ p, c ≠ .pattern p)
    (hempty : get_activations c fl = .ok []) :
    get_activations (.or (c :: rest)) fl = .ok [] := by
  have hin : orInner (c :: rest) fl = .ok [] := by
    cases c with
    | pattern p => exact absurd rfl (hcomp p)
    | rule cs =>
      rw [orInner, hempty]
      · simp
      · intro p h; exact CE.noConfusion h
    | and cs =>
      rw [orInner, hempty]
      · simp
      · intro p h; exact CE.noConfusion h
    | or cs =>
      rw [orInner, hempty]
      · simp
      · intro p h; exact CE.noConfusion h
    | not cs =>
      rw [orInner, hempty]
      · simp
      · intro p h; exact CE.noConfusion h
  have hout : ∀ n, orOuter (c :: rest) n fl = .ok [] := by
    intro n
    induction n with
    | zero => rw [orOuter]
    | succ n ih =>
      rw [orOuter, hin, ih]
      rfl
  rw [get_activations, orGetActivations, hout]
  rfl

theorem or_first_composite_empty_witness :
    get_activations (.or [.rule [.pattern (.mk 9)], .pattern (.mk 1)]) storeOneEach =
      .ok [] := by
  have hempty : get_activations (.rule [.pattern (.mk 9)]) storeOneEach = .ok [] := by
    rw [get_activations, ruleGetActivations, buildMatches]
    simp [storeOneEach]
  exact or_first_composite_empty (.rule [.pattern (.mk 9)]) [.pattern (.mk 1)]
    storeOneEach (fun p h => CE.noConfusion h) hempty
